import Mathlib

/-!
Verification of the `babelfont-fontc-build` request-orchestration layer
(`src/babelfont-fontc-build/src/lib.rs`).

The layer wraps external collaborators (a font-description parser, a
glyph-retention transform, a compiler, an interpolation engine, a layer
serializer and a location-JSON parser).  Those collaborators live in other
crates, so they are abstracted here as fields of an `Engine` record; the
wrapper logic itself — option resolution, the subset gate, the cache slot
protocol and location decoding — is translated faithfully from the Rust
source.  The process-wide `FONT_CACHE` mutex slot is modelled by explicit
state passing of an `Option F` value.
-/

namespace BabelfontBuild

/-- Model of a `wasm_bindgen::JsValue` as seen by this layer: the options
payload can be `undefined`, `null`, a primitive, an array or a plain object
(an association list of string-keyed fields). Numbers carry an `Int` stand-in
payload; the layer never computes with them. -/
inductive JsVal where
  | undefined
  | null
  | jsBool (b : Bool)
  | num (n : Int)
  | str (s : String)
  | arr (elems : List JsVal)
  | obj (fields : List (String × JsVal))

namespace JsVal

/-- `JsValue::is_undefined`. -/
def isUndefined : JsVal → Bool
  | .undefined => true
  | _ => false

/-- `JsValue::is_null`. -/
def isNull : JsVal → Bool
  | .null => true
  | _ => false

/-- `JsValue::as_bool`: `some b` exactly on boolean values. -/
def asBool : JsVal → Option Bool
  | .jsBool b => some b
  | _ => none

/-- `JsValue::as_string`: `some s` exactly on string values. -/
def asString : JsVal → Option String
  | .str s => some s
  | _ => none

/-- `JsValue::dyn_into::<js_sys::Array>`: succeeds exactly on arrays. -/
def asArr : JsVal → Option (List JsVal)
  | .arr elems => some elems
  | _ => none

/-- First binding of a key in an object's field list (JS property lookup). -/
def fieldLookup (k : String) : List (String × JsVal) → Option JsVal
  | [] => none
  | (k', v) :: rest => if k' = k then some v else fieldLookup k rest

/-- `js_sys::Reflect::get(target, key)`: on a plain object it yields the
property or `undefined`; on an array (an object with no named fields in this
model) it yields `undefined`; on any primitive, `undefined` or `null` the JS
`Reflect.get` throws, which surfaces as `Err` on the Rust side. -/
def reflectGet (target : JsVal) (key : String) : Except Unit JsVal :=
  match target with
  | .obj fields => .ok ((fieldLookup key fields).getD .undefined)
  | .arr _ => .ok .undefined
  | _ => .error ()

end JsVal

/-- `babelfont::convertors::fontir::CompilationOptions` (external record,
shape fixed by the five fields the wrapper fills in). -/
structure CompilationOptions where
  skip_kerning : Bool
  skip_features : Bool
  skip_metrics : Bool
  skip_outlines : Bool
  dont_use_production_names : Bool
deriving DecidableEq, Repr

/-- The all-`false` defaults. -/
def CompilationOptions.defaults : CompilationOptions :=
  ⟨false, false, false, false, false⟩

/-- `get_option` (lib.rs:22-30): early-return the default on an
`undefined`/`null` payload; otherwise `Reflect::get`, with a thrown access
replaced by the boolean default (`unwrap_or(JsValue::from_bool(default))`),
then `as_bool().unwrap_or(default)`. -/
def get_option (options : JsVal) (key : String) (dflt : Bool) : Bool :=
  if options.isUndefined || options.isNull then dflt
  else
    match options.reflectGet key with
    | .error _ => (JsVal.jsBool dflt).asBool.getD dflt
    | .ok v => v.asBool.getD dflt

/-- The `CompilationOptions { ... }` record literal built from `get_option`
calls, shared verbatim by `compile_babelfont` (lib.rs:75-81) and
`compile_cached_font` (lib.rs:211-217). -/
def resolveOptions (options : JsVal) : CompilationOptions :=
  { skip_kerning := get_option options "skip_kerning" false,
    skip_features := get_option options "skip_features" false,
    skip_metrics := get_option options "skip_metrics" false,
    skip_outlines := get_option options "skip_outlines" false,
    dont_use_production_names := get_option options "dont_use_production_names" false }

/-- Modelled from the spec: the axis-tag decoder (collaborator (f),
`write_fonts::types::Tag::from_str`), which is not part of this repository's
sources.  Per the spec, a design-space location's keys are 4-character axis
identifiers: "each key must decode as a valid 4-character axis tag, else fail
with `InvalidTag`".  The model therefore accepts exactly the 4-character
strings and keeps the decoded tag canonical (the string itself). -/
structure Tag where
  chars : String
deriving DecidableEq, Repr

/-- Modelled from the spec: decoding a string into a 4-character axis tag;
any other length is rejected with a diagnostic. -/
def Tag.fromStr (s : String) : Except String Tag :=
  if s.length = 4 then .ok ⟨s⟩ else .error "invalid tag length"

/-- The external collaborators consumed by the wrapper, abstracted at their
interface boundary: font parser (serde), glyph-retention transform, compiler,
interpolation engine, layer serializer, and the location-JSON parser.  `F` is
the opaque font value, `L` the opaque layer value, `V` the numeric coordinate
payload (`f64` in the source). -/
structure Engine (F L V : Type) where
  parseFont : String → Except String F
  retainGlyphs : List String → F → Except String F
  compile : F → CompilationOptions → Except String (List Nat)
  parseLocation : String → Except String (List (String × V))
  interpolateGlyph : F → String → List (Tag × V) → Except String L
  serializeLayer : L → Except String String

/-- The stable external error representation (each Rust site formats a
distinct message prefix into the returned `JsValue` string; the constructors
keep the prefix as the tag and the collaborator's diagnostic as payload, and
`invalidTag` additionally carries the offending key, as the source interpolates
it into the message). -/
inductive JsErr where
  | parseError (msg : String)
  | subsetError (msg : String)
  | compilationError (msg : String)
  | notCached
  | locationParseError (msg : String)
  | invalidTag (key : String) (msg : String)
  | interpolationError (msg : String)
  | serializationError (msg : String)
deriving DecidableEq, Repr

/-- The process-wide `FONT_CACHE` slot contents: `Mutex<Option<Font>>`,
modelled as the guarded `Option` value threaded through the stateful
operations. -/
abbrev Cache (F : Type) := Option F

variable {F L V : Type}

/-- The `subset_glyphs` handling block, textually shared by
`compile_babelfont` (lib.rs:55-73) and `compile_cached_font` (lib.rs:191-209):
skip when the payload is `undefined`/`null`, when `Reflect::get` throws, when
the field is `undefined`/`null` or not an array; collect the array's string
elements (non-strings are `filter_map`ped away); skip when that list is empty;
otherwise run `RetainGlyphs::apply` and surface its failure as the
"Subsetting failed" error. -/
def applySubsetGate (E : Engine F L V) (options : JsVal) (font : F) :
    Except JsErr F :=
  if options.isUndefined || options.isNull then .ok font
  else
    match options.reflectGet "subset_glyphs" with
    | .error _ => .ok font
    | .ok subsetVal =>
      if subsetVal.isUndefined || subsetVal.isNull then .ok font
      else
        match subsetVal.asArr with
        | none => .ok font
        | some elems =>
          let subset_glyphs := elems.filterMap JsVal.asString
          if subset_glyphs.isEmpty then .ok font
          else
            match E.retainGlyphs subset_glyphs font with
            | .error e => .error (.subsetError e)
            | .ok font2 => .ok font2

/-- `compile_babelfont` (lib.rs:50-87): parse the JSON text, apply the subset
gate, resolve the options, invoke the compiler. -/
def compile_babelfont (E : Engine F L V) (babelfont_json : String)
    (options : JsVal) : Except JsErr (List Nat) :=
  match E.parseFont babelfont_json with
  | .error e => .error (.parseError e)
  | .ok font =>
    match applySubsetGate E options font with
    | .error err => .error err
    | .ok font2 =>
      match E.compile font2 (resolveOptions options) with
      | .error e => .error (.compilationError e)
      | .ok bytes => .ok bytes

/-- `store_font` (lib.rs:112-120): parse, then overwrite the slot; on a parse
failure the function returns before touching the slot. -/
def store_font (E : Engine F L V) (cache : Cache F) (babelfont_json : String) :
    Except JsErr Unit × Cache F :=
  match E.parseFont babelfont_json with
  | .error e => (.error (.parseError e), cache)
  | .ok font => (.ok (), some font)

/-- `clear_font_cache` (lib.rs:124-127): empty the slot. -/
def clear_font_cache (_cache : Cache F) : Cache F := none

/-- Decoding the parsed location map's entries into `(Tag, coord)` pairs
(lib.rs:150-156): `Tag::from_str` on each key, first failure aborting the
whole `collect::<Result<Vec<_>, _>>` with the "Invalid tag" error naming the
key. -/
def decodeLocation : List (String × V) → Except JsErr (List (Tag × V))
  | [] => .ok []
  | (k, v) :: rest =>
    match Tag.fromStr k with
    | .error e => .error (.invalidTag k e)
    | .ok t =>
      match decodeLocation rest with
      | .error err => .error err
      | .ok pairs => .ok ((t, v) :: pairs)

/-- Insertion into the `fontdrasil` `DesignLocation` (a `BTreeMap` keyed by
tag): kept as a sorted association list, a later insertion of an existing key
overwriting the old binding. -/
def dlInsert (t : Tag) (v : V) : List (Tag × V) → List (Tag × V)
  | [] => [(t, v)]
  | (t', v') :: rest =>
    if t.chars < t'.chars then (t, v) :: (t', v') :: rest
    else if t = t' then (t, v) :: rest
    else (t', v') :: dlInsert t v rest

/-- `collect::<DesignLocation>()` over the decoded pairs (lib.rs:157-158). -/
def dlOfList (pairs : List (Tag × V)) : List (Tag × V) :=
  pairs.foldl (fun acc tv => dlInsert tv.1 tv.2 acc) []

/-- `interpolate_glyph` (lib.rs:140-169): fail `NotCached` on an empty slot;
parse the location JSON; decode each key as a tag; build the design location;
run the engine; serialize the layer. The slot is only read. -/
def interpolate_glyph (E : Engine F L V) (cache : Cache F)
    (glyph_name : String) (location_json : String) : Except JsErr String :=
  match cache with
  | none => .error .notCached
  | some font =>
    match E.parseLocation location_json with
    | .error e => .error (.locationParseError e)
    | .ok locMap =>
      match decodeLocation locMap with
      | .error err => .error err
      | .ok pairs =>
        match E.interpolateGlyph font glyph_name (dlOfList pairs) with
        | .error e => .error (.interpolationError e)
        | .ok layer =>
          match E.serializeLayer layer with
          | .error e => .error (.serializationError e)
          | .ok s => .ok s

/-- `compile_cached_font` (lib.rs:182-223): fail `NotCached` on an empty
slot; clone the held font (value semantics here), run the subset gate on the
clone, resolve options, compile — the slot itself is returned untouched. -/
def compile_cached_font (E : Engine F L V) (cache : Cache F)
    (options : JsVal) : Except JsErr (List Nat) × Cache F :=
  match cache with
  | none => (.error .notCached, cache)
  | some font =>
    let result :=
      match applySubsetGate E options font with
      | .error err => .error err
      | .ok font2 =>
        match E.compile font2 (resolveOptions options) with
        | .error e => .error (.compilationError e)
        | .ok bytes => .ok bytes
    (result, cache)

end BabelfontBuild

namespace BabelfontBuild

/-! ### Concrete engine instantiations

Used to exercise the orchestrators on closed inputs: font values are sizes,
layer values are numbers, coordinates are integers. -/

/-- An engine whose collaborators all succeed. -/
def okEngine : Engine Nat Nat Int :=
  { parseFont := fun s => .ok s.length,
    retainGlyphs := fun gs f => .ok (f + gs.length),
    compile := fun f o => .ok [f, cond o.skip_kerning 1 0],
    parseLocation := fun s => .ok [(s, 550)],
    interpolateGlyph := fun f g _ => .ok (f + g.length),
    serializeLayer := fun l => .ok (toString l) }

/-- An engine whose font parser always reports a diagnostic. -/
def badParseEngine : Engine Nat Nat Int :=
  { okEngine with parseFont := fun _ => .error "parse failure" }

variable {F L V : Type}

/-- C1: for every font-description text that parses successfully and every
options payload, `store_font` followed by `compile_cached_font` returns the
same byte sequence as `compile_babelfont` on that text with the same options
(in particular for the default all-false options, since `options` is
arbitrary). -/
theorem store_then_compile_cached_eq_compile_once (E : Engine F L V)
    (c0 : Cache F) (babelfont_json : String) (options : JsVal) (font : F)
    (hparse : E.parseFont babelfont_json = .ok font) :
    (compile_cached_font E (store_font E c0 babelfont_json).2 options).1 =
      compile_babelfont E babelfont_json options := by
  simp [store_font, hparse, compile_cached_font, compile_babelfont]

/-- Witness for C1 at a concrete text and payload. -/
theorem store_then_compile_cached_eq_compile_once_witness :
    (compile_cached_font okEngine
        (store_font okEngine none "myfont").2 (JsVal.obj [])).1 =
      compile_babelfont okEngine "myfont" (JsVal.obj []) :=
  store_then_compile_cached_eq_compile_once okEngine none "myfont"
    (JsVal.obj []) 6 (by rfl)

/-- C2: `compile_cached_font` never mutates the cache slot: for every cached
value and every options payload (subsetting or not, success or error) the
slot's contents after the call equal its contents before, so a subsequent
`interpolate_glyph` of the same glyph and location yields the same result as
before the compile. -/
theorem compile_cached_font_frame (E : Engine F L V) (cache : Cache F)
    (options : JsVal) (glyph_name location_json : String) :
    (compile_cached_font E cache options).2 = cache ∧
    interpolate_glyph E (compile_cached_font E cache options).2 glyph_name
        location_json =
      interpolate_glyph E cache glyph_name location_json := by
  cases cache <;> simp [compile_cached_font]

/-- The option-resolution behaviour in the spec's words: an option resolves
to its payload value when the payload is an object carrying that key with a
boolean value, and to the default `false` otherwise. -/
def specBoolOption (payload : JsVal) (key : String) : Bool :=
  match payload with
  | .obj fields =>
    match JsVal.fieldLookup key fields with
    | some (.jsBool b) => b
    | _ => false
  | _ => false

/-- C3: option resolution is total and never fails: on every payload each of
the five boolean options resolves to its payload value when that value is a
boolean and to `false` otherwise, and an absent (`undefined`/`null`) payload
resolves every option to `false`. -/
theorem option_resolution_total (payload : JsVal) :
    resolveOptions payload =
      { skip_kerning := specBoolOption payload "skip_kerning",
        skip_features := specBoolOption payload "skip_features",
        skip_metrics := specBoolOption payload "skip_metrics",
        skip_outlines := specBoolOption payload "skip_outlines",
        dont_use_production_names :=
          specBoolOption payload "dont_use_production_names" } ∧
    resolveOptions .undefined = CompilationOptions.defaults ∧
    resolveOptions .null = CompilationOptions.defaults := by
  refine ⟨?_, by rfl, by rfl⟩
  have h : ∀ k, get_option payload k false = specBoolOption payload k := by
    intro k
    cases payload with
    | obj fields =>
      simp only [get_option, JsVal.isUndefined, JsVal.isNull, JsVal.reflectGet,
        specBoolOption]
      cases hv : JsVal.fieldLookup k fields with
      | none => simp [JsVal.asBool]
      | some v => cases v <;> simp [JsVal.asBool]
    | _ => simp [get_option, JsVal.isUndefined, JsVal.isNull,
        JsVal.reflectGet, specBoolOption, JsVal.asBool]
  simp only [resolveOptions, h]

/-- C4: after `clear_font_cache`, every stateful operation fails with
`NotCached` — `compile_cached_font` for every options payload and
`interpolate_glyph` for every glyph and location text — until a successful
`store_font` repopulates the slot. -/
theorem clear_then_stateful_fails_not_cached (E : Engine F L V)
    (cache : Cache F) (options : JsVal)
    (glyph_name location_json babelfont_json : String) (font : F)
    (hparse : E.parseFont babelfont_json = .ok font) :
    (compile_cached_font E (clear_font_cache cache) options).1 =
      .error .notCached ∧
    interpolate_glyph E (clear_font_cache cache) glyph_name location_json =
      .error .notCached ∧
    (store_font E (clear_font_cache cache) babelfont_json).2 = some font := by
  exact ⟨rfl, rfl, by simp [store_font, hparse]⟩

/-- Witness for C4 at concrete inputs. -/
theorem clear_then_stateful_fails_not_cached_witness :
    (compile_cached_font okEngine (clear_font_cache (some 7))
        (JsVal.obj [])).1 = .error .notCached ∧
    interpolate_glyph okEngine (clear_font_cache (some 7)) "A" "wght" =
      .error .notCached ∧
    (store_font okEngine (clear_font_cache (some 7)) "abcd").2 = some 4 :=
  clear_then_stateful_fails_not_cached okEngine (some 7) (JsVal.obj [])
    "A" "wght" "abcd" 4 (by rfl)

/-- C9: `store_font` is atomic on failure: when the text fails to parse, the
call returns the parse error and the cache slot is exactly what it was before
the call. -/
theorem store_font_atomic_on_failure (E : Engine F L V) (cache : Cache F)
    (babelfont_json : String) (e : String)
    (hparse : E.parseFont babelfont_json = .error e) :
    store_font E cache babelfont_json = (.error (.parseError e), cache) := by
  simp [store_font, hparse]

/-- Witness for C9: a failing parse leaves a populated slot untouched. -/
theorem store_font_atomic_on_failure_witness :
    store_font badParseEngine (some 7) "junk" =
      (.error (.parseError "parse failure"), some 7) :=
  store_font_atomic_on_failure badParseEngine (some 7) "junk"
    "parse failure" (by rfl)

end BabelfontBuild

namespace BabelfontBuild

variable {F L V : Type}

/-- Decoding a location list whose first failing key is `k` aborts the whole
`collect` with the `invalidTag` error naming `k`. -/
theorem decodeLocation_first_failure (m₁ m₂ : List (String × V)) (k : String)
    (v : V) (e : String)
    (hok : ∀ kv ∈ m₁, ∃ t, Tag.fromStr kv.1 = .ok t)
    (hbad : Tag.fromStr k = .error e) :
    decodeLocation (m₁ ++ (k, v) :: m₂) = .error (.invalidTag k e) := by
  induction m₁ with
  | nil => simp [decodeLocation, hbad]
  | cons hd rest ih =>
    obtain ⟨t, ht⟩ := hok hd (by simp)
    have hrest := ih (fun kv hkv => hok kv (List.mem_cons_of_mem hd hkv))
    simp [decodeLocation, ht, hrest]

/-- C5: in `interpolate_glyph`, every key of the location mapping must decode
as a valid 4-character axis tag; a key that does not makes the whole call
fail with `InvalidTag` naming that key (the first failing key in iteration
order), and no partial location reaches the engine. -/
theorem interpolate_glyph_invalid_tag (E : Engine F L V) (font : F)
    (glyph_name location_json : String) (m₁ m₂ : List (String × V))
    (k : String) (v : V) (e : String)
    (hloc : E.parseLocation location_json = .ok (m₁ ++ (k, v) :: m₂))
    (hok : ∀ kv ∈ m₁, ∃ t, Tag.fromStr kv.1 = .ok t)
    (hbad : Tag.fromStr k = .error e) :
    interpolate_glyph E (some font) glyph_name location_json =
      .error (.invalidTag k e) := by
  have hdec := decodeLocation_first_failure m₁ m₂ k v e hok hbad
  simp [interpolate_glyph, hloc, hdec]

/-- Witness for C5: a location whose only key is the 2-character `"ww"`
fails with `InvalidTag` naming `"ww"`. -/
theorem interpolate_glyph_invalid_tag_witness :
    interpolate_glyph okEngine (some 7) "A" "ww" =
      .error (.invalidTag "ww" "invalid tag length") :=
  interpolate_glyph_invalid_tag okEngine 7 "A" "ww" [] [] "ww" 550
    "invalid tag length" (by rfl) (by simp) (by rfl)

end BabelfontBuild

namespace BabelfontBuild

variable {F L V : Type}

/-- Whether the subset gate passes the font through unchanged (computed from
the options payload alone): the field is absent, throws on access, is not an
array, or its array holds no string elements. -/
def gateSkips (p : JsVal) : Bool :=
  match p with
  | .obj fields =>
    match JsVal.fieldLookup "subset_glyphs" fields with
    | none => true
    | some v =>
      match v.asArr with
      | none => true
      | some elems => (elems.filterMap JsVal.asString).isEmpty
  | _ => true

/-- When `gateSkips` holds, the subset gate is the identity for every
engine. -/
theorem applySubsetGate_skip (E : Engine F L V) (p : JsVal) (font : F)
    (h : gateSkips p = true) : applySubsetGate E p font = .ok font := by
  cases p with
  | obj fields =>
    simp only [applySubsetGate, JsVal.isUndefined, JsVal.isNull,
      JsVal.reflectGet, Bool.or_false, if_false]
    cases hv : JsVal.fieldLookup "subset_glyphs" fields with
    | none => simp [JsVal.isUndefined]
    | some v =>
      simp only [Option.getD]
      cases v with
      | undefined => simp [JsVal.isUndefined]
      | null => simp [JsVal.isNull]
      | jsBool b => simp [JsVal.isUndefined, JsVal.isNull, JsVal.asArr]
      | num n => simp [JsVal.isUndefined, JsVal.isNull, JsVal.asArr]
      | str s => simp [JsVal.isUndefined, JsVal.isNull, JsVal.asArr]
      | obj fs => simp [JsVal.isUndefined, JsVal.isNull, JsVal.asArr]
      | arr elems =>
        have he : (elems.filterMap JsVal.asString).isEmpty = true := by
          simpa [gateSkips, hv, JsVal.asArr] using h
        simp [JsVal.isUndefined, JsVal.isNull, JsVal.asArr, he]
  | undefined => rfl
  | null => rfl
  | jsBool b => rfl
  | num n => rfl
  | str s => rfl
  | arr elems => rfl

/-- Removing the `subset_glyphs` entry from an options object (identity on
every other payload): "the same call without any subset_glyphs entry". -/
def eraseSubset : JsVal → JsVal
  | .obj fields => .obj (fields.filter (fun kv => kv.1 != "subset_glyphs"))
  | p => p

/-- Looking up a key other than the erased one is unaffected. -/
theorem fieldLookup_filter_ne (fields : List (String × JsVal))
    (k key : String) (hne : k ≠ key) :
    JsVal.fieldLookup k (fields.filter (fun kv => kv.1 != key)) =
      JsVal.fieldLookup k fields := by
  induction fields with
  | nil => rfl
  | cons hd rest ih =>
    obtain ⟨k', v⟩ := hd
    rw [List.filter_cons]
    by_cases hk : k' = key
    · subst hk
      simp [JsVal.fieldLookup, ih, Ne.symm hne]
    · have hb : (k' != key) = true := bne_iff_ne.mpr hk
      simp [hb, JsVal.fieldLookup, ih]

/-- Looking up the erased key itself yields nothing. -/
theorem fieldLookup_filter_self (fields : List (String × JsVal))
    (key : String) :
    JsVal.fieldLookup key (fields.filter (fun kv => kv.1 != key)) = none := by
  induction fields with
  | nil => rfl
  | cons hd rest ih =>
    obtain ⟨k', v⟩ := hd
    rw [List.filter_cons]
    by_cases hk : k' = key
    · subst hk
      simp [ih]
    · have hb : (k' != key) = true := bne_iff_ne.mpr hk
      simp [hb, JsVal.fieldLookup, hk, ih]

/-- Erasing `subset_glyphs` does not change any boolean option lookup. -/
theorem get_option_eraseSubset (p : JsVal) (k : String)
    (hk : k ≠ "subset_glyphs") (dflt : Bool) :
    get_option (eraseSubset p) k dflt = get_option p k dflt := by
  cases p with
  | obj fields =>
    simp only [eraseSubset, get_option, JsVal.isUndefined, JsVal.isNull,
      JsVal.reflectGet, fieldLookup_filter_ne fields k "subset_glyphs" hk]
  | undefined => rfl
  | null => rfl
  | jsBool b => rfl
  | num n => rfl
  | str s => rfl
  | arr elems => rfl

/-- Erasing `subset_glyphs` does not change option resolution. -/
theorem resolveOptions_eraseSubset (p : JsVal) :
    resolveOptions (eraseSubset p) = resolveOptions p := by
  unfold resolveOptions
  rw [get_option_eraseSubset p "skip_kerning" (by decide),
    get_option_eraseSubset p "skip_features" (by decide),
    get_option_eraseSubset p "skip_metrics" (by decide),
    get_option_eraseSubset p "skip_outlines" (by decide),
    get_option_eraseSubset p "dont_use_production_names" (by decide)]

/-- The gate always skips after the `subset_glyphs` entry is removed. -/
theorem gateSkips_eraseSubset (p : JsVal) : gateSkips (eraseSubset p) = true := by
  cases p with
  | obj fields =>
    simp [gateSkips, eraseSubset, fieldLookup_filter_self fields "subset_glyphs"]
  | undefined => rfl
  | null => rfl
  | jsBool b => rfl
  | num n => rfl
  | str s => rfl
  | arr elems => rfl

/-- A payload on which the gate skips compiles once exactly like the payload
with its `subset_glyphs` entry removed. -/
theorem compile_babelfont_eraseSubset (E : Engine F L V)
    (babelfont_json : String) (p : JsVal) (h : gateSkips p = true) :
    compile_babelfont E babelfont_json p =
      compile_babelfont E babelfont_json (eraseSubset p) := by
  unfold compile_babelfont
  cases hp : E.parseFont babelfont_json with
  | error e => rfl
  | ok font =>
    have h1 := applySubsetGate_skip E p font h
    have h2 := applySubsetGate_skip E (eraseSubset p) font (gateSkips_eraseSubset p)
    simp [h1, h2, resolveOptions_eraseSubset]

/-- Cached variant of `compile_babelfont_eraseSubset`. -/
theorem compile_cached_font_eraseSubset (E : Engine F L V) (cache : Cache F)
    (p : JsVal) (h : gateSkips p = true) :
    (compile_cached_font E cache p).1 =
      (compile_cached_font E cache (eraseSubset p)).1 := by
  cases cache with
  | none => rfl
  | some font =>
    unfold compile_cached_font
    have h1 := applySubsetGate_skip E p font h
    have h2 := applySubsetGate_skip E (eraseSubset p) font (gateSkips_eraseSubset p)
    simp [h1, h2, resolveOptions_eraseSubset]

/-- The payload shapes named by claim C6: `subset_glyphs` absent (or left
`undefined`), `null`, or an empty list. -/
def subsetFieldTrivial (p : JsVal) : Bool :=
  match p with
  | .obj fields =>
    match JsVal.fieldLookup "subset_glyphs" fields with
    | none => true
    | some .undefined => true
    | some .null => true
    | some (.arr []) => true
    | some _ => false
  | _ => true

/-- C6's shapes are among those on which the gate skips. -/
theorem gateSkips_of_trivial (p : JsVal) (h : subsetFieldTrivial p = true) :
    gateSkips p = true := by
  cases p with
  | obj fields =>
    simp only [subsetFieldTrivial] at h
    simp only [gateSkips]
    cases hv : JsVal.fieldLookup "subset_glyphs" fields with
    | none => rfl
    | some v =>
      rw [hv] at h
      cases v with
      | undefined => rfl
      | null => rfl
      | jsBool b => exact absurd h (by simp)
      | num n => exact absurd h (by simp)
      | str s => exact absurd h (by simp)
      | obj fs => exact absurd h (by simp)
      | arr elems =>
        cases elems with
        | nil => rfl
        | cons e es => exact absurd h (by simp)
  | undefined => rfl
  | null => rfl
  | jsBool b => rfl
  | num n => rfl
  | str s => rfl
  | arr elems => rfl

/-- C6: subsetting with an empty or absent glyph list is a no-op: when
`subset_glyphs` is absent, `null` or an empty list, the font value passes the
subset gate unchanged, and both `compile_babelfont` and `compile_cached_font`
produce the same bytes as the same call without any `subset_glyphs` entry. -/
theorem subset_empty_or_absent_noop (E : Engine F L V)
    (babelfont_json : String) (options : JsVal) (font : F) (cache : Cache F)
    (h : subsetFieldTrivial options = true) :
    applySubsetGate E options font = .ok font ∧
    compile_babelfont E babelfont_json options =
      compile_babelfont E babelfont_json (eraseSubset options) ∧
    (compile_cached_font E cache options).1 =
      (compile_cached_font E cache (eraseSubset options)).1 := by
  have hg := gateSkips_of_trivial options h
  exact ⟨applySubsetGate_skip E options font hg,
    compile_babelfont_eraseSubset E babelfont_json options hg,
    compile_cached_font_eraseSubset E cache options hg⟩

/-- Witness for C6: an options object with an explicit `null` subset list and
a boolean option set. -/
theorem subset_empty_or_absent_noop_witness :
    applySubsetGate okEngine
        (JsVal.obj [("skip_kerning", JsVal.jsBool true),
          ("subset_glyphs", JsVal.null)]) 3 = .ok 3 ∧
    compile_babelfont okEngine "myfont"
        (JsVal.obj [("skip_kerning", JsVal.jsBool true),
          ("subset_glyphs", JsVal.null)]) =
      compile_babelfont okEngine "myfont"
        (eraseSubset (JsVal.obj [("skip_kerning", JsVal.jsBool true),
          ("subset_glyphs", JsVal.null)])) ∧
    (compile_cached_font okEngine (some 3)
        (JsVal.obj [("skip_kerning", JsVal.jsBool true),
          ("subset_glyphs", JsVal.null)])).1 =
      (compile_cached_font okEngine (some 3)
        (eraseSubset (JsVal.obj [("skip_kerning", JsVal.jsBool true),
          ("subset_glyphs", JsVal.null)]))).1 :=
  subset_empty_or_absent_noop okEngine "myfont"
    (JsVal.obj [("skip_kerning", JsVal.jsBool true),
      ("subset_glyphs", JsVal.null)]) 3 (some 3) (by rfl)

end BabelfontBuild

namespace BabelfontBuild

variable {F L V : Type}

/-- C10: a malformed `subset_glyphs` option never causes an error: a
non-array value skips the subset gate entirely, and non-string array elements
are silently dropped, so an array of only non-string elements behaves exactly
like an absent subset list in both `compile_babelfont` and
`compile_cached_font`. -/
theorem malformed_subset_glyphs_harmless (E : Engine F L V)
    (babelfont_json : String) (fields : List (String × JsVal)) (font : F)
    (cache : Cache F) (v : JsVal) (elems : List JsVal)
    (hv : JsVal.fieldLookup "subset_glyphs" fields = some v) :
    (v.asArr = none → applySubsetGate E (.obj fields) font = .ok font) ∧
    (v = .arr elems → elems.filterMap JsVal.asString = [] →
      applySubsetGate E (.obj fields) font = .ok font ∧
      compile_babelfont E babelfont_json (.obj fields) =
        compile_babelfont E babelfont_json (eraseSubset (.obj fields)) ∧
      (compile_cached_font E cache (.obj fields)).1 =
        (compile_cached_font E cache (eraseSubset (.obj fields))).1) := by
  constructor
  · intro hna
    exact applySubsetGate_skip E (.obj fields) font (by simp [gateSkips, hv, hna])
  · rintro rfl hfm
    have hg : gateSkips (.obj fields) = true := by
      simp [gateSkips, hv, JsVal.asArr, hfm]
    exact ⟨applySubsetGate_skip E (.obj fields) font hg,
      compile_babelfont_eraseSubset E babelfont_json (.obj fields) hg,
      compile_cached_font_eraseSubset E cache (.obj fields) hg⟩

/-- Witness for C10: a string-valued `subset_glyphs` skips the gate; an
array of only non-string elements behaves like an absent list. -/
theorem malformed_subset_glyphs_harmless_witness :
    applySubsetGate okEngine
        (JsVal.obj [("subset_glyphs", JsVal.str "notalist")]) 3 = .ok 3 ∧
    applySubsetGate okEngine
        (JsVal.obj [("subset_glyphs",
          JsVal.arr [JsVal.num 1, JsVal.null])]) 3 = .ok 3 ∧
    compile_babelfont okEngine "myfont"
        (JsVal.obj [("subset_glyphs", JsVal.arr [JsVal.num 1, JsVal.null])]) =
      compile_babelfont okEngine "myfont"
        (eraseSubset (JsVal.obj [("subset_glyphs",
          JsVal.arr [JsVal.num 1, JsVal.null])])) ∧
    (compile_cached_font okEngine (some 3)
        (JsVal.obj [("subset_glyphs", JsVal.arr [JsVal.num 1, JsVal.null])])).1 =
      (compile_cached_font okEngine (some 3)
        (eraseSubset (JsVal.obj [("subset_glyphs",
          JsVal.arr [JsVal.num 1, JsVal.null])]))).1 := by
  refine ⟨?_, ?_, ?_, ?_⟩
  · exact (malformed_subset_glyphs_harmless okEngine "myfont"
      [("subset_glyphs", JsVal.str "notalist")] 3 (some 3)
      (JsVal.str "notalist") [] (by rfl)).1 (by rfl)
  · exact ((malformed_subset_glyphs_harmless okEngine "myfont"
      [("subset_glyphs", JsVal.arr [JsVal.num 1, JsVal.null])] 3 (some 3)
      (JsVal.arr [JsVal.num 1, JsVal.null]) [JsVal.num 1, JsVal.null]
      (by rfl)).2 rfl (by rfl)).1
  · exact ((malformed_subset_glyphs_harmless okEngine "myfont"
      [("subset_glyphs", JsVal.arr [JsVal.num 1, JsVal.null])] 3 (some 3)
      (JsVal.arr [JsVal.num 1, JsVal.null]) [JsVal.num 1, JsVal.null]
      (by rfl)).2 rfl (by rfl)).2.1
  · exact ((malformed_subset_glyphs_harmless okEngine "myfont"
      [("subset_glyphs", JsVal.arr [JsVal.num 1, JsVal.null])] 3 (some 3)
      (JsVal.arr [JsVal.num 1, JsVal.null]) [JsVal.num 1, JsVal.null]
      (by rfl)).2 rfl (by rfl)).2.2

end BabelfontBuild

namespace BabelfontBuild

variable {F L V : Type}

/-- Inserting a fresh tag into the design-location map is, up to order,
consing the binding. -/
theorem dlInsert_perm (t : Tag) (v : V) (acc : List (Tag × V))
    (h : ∀ tv ∈ acc, tv.1 ≠ t) :
    List.Perm (dlInsert t v acc) ((t, v) :: acc) := by
  induction acc with
  | nil => exact List.Perm.refl _
  | cons hd rest ih =>
    obtain ⟨t2, v2⟩ := hd
    simp only [dlInsert]
    by_cases h1 : t.chars < t2.chars
    · rw [if_pos h1]
    · rw [if_neg h1]
      have hne : ¬t = t2 :=
        fun he => h (t2, v2) (List.mem_cons_self _ _) he.symm
      rw [if_neg hne]
      have ihh := ih (fun tv htv => h tv (List.mem_cons_of_mem _ htv))
      exact (List.Perm.cons (t2, v2) ihh).trans
        (List.Perm.swap (t, v) (t2, v2) rest)

/-- Folding fresh-keyed pairs into the design-location map permutes them onto
the accumulator. -/
theorem dlFold_perm (pairs : List (Tag × V)) :
    ∀ acc : List (Tag × V), (pairs.map Prod.fst).Nodup →
    (∀ tv ∈ pairs, ∀ tv2 ∈ acc, tv2.1 ≠ tv.1) →
    List.Perm (pairs.foldl (fun a tv => dlInsert tv.1 tv.2 a) acc)
      (pairs ++ acc) := by
  induction pairs with
  | nil =>
    intro acc _ _
    simp
  | cons hd rest ih =>
    intro acc hnd hdisj
    rw [List.foldl_cons]
    have hins : List.Perm (dlInsert hd.1 hd.2 acc) ((hd.1, hd.2) :: acc) :=
      dlInsert_perm hd.1 hd.2 acc
        (fun tv htv => hdisj hd (List.mem_cons_self _ _) tv htv)
    have hnd2 : (rest.map Prod.fst).Nodup := (List.nodup_cons.mp hnd).2
    have hhd : hd.1 ∉ rest.map Prod.fst := (List.nodup_cons.mp hnd).1
    have hdisj2 : ∀ tv ∈ rest, ∀ tv2 ∈ dlInsert hd.1 hd.2 acc,
        tv2.1 ≠ tv.1 := by
      intro tv htv tv2 htv2
      rcases List.mem_cons.mp (hins.mem_iff.mp htv2) with h2 | h2
      · rw [h2]
        intro heq
        exact hhd (heq ▸ List.mem_map_of_mem Prod.fst htv)
      · exact hdisj tv (List.mem_cons_of_mem _ htv) tv2 h2
    have hih := ih (dlInsert hd.1 hd.2 acc) hnd2 hdisj2
    exact hih.trans ((List.Perm.append_left rest hins).trans List.perm_middle)

/-- `collect`ing into the design location permutes the decoded pairs when
their tags are distinct. -/
theorem dlOfList_perm (pairs : List (Tag × V))
    (hnd : (pairs.map Prod.fst).Nodup) :
    List.Perm (dlOfList pairs) pairs := by
  have h := dlFold_perm pairs [] hnd (by simp)
  simpa [dlOfList] using h

/-- Decoding a mapping of 4-character keys succeeds and keeps every pair in
order. -/
theorem decodeLocation_ok_of_len4 (m : List (String × V))
    (hlen : ∀ kv ∈ m, kv.1.length = 4) :
    decodeLocation m = .ok (m.map (fun kv => (Tag.mk kv.1, kv.2))) := by
  induction m with
  | nil => rfl
  | cons hd rest ih =>
    obtain ⟨k, v⟩ := hd
    have hk : k.length = 4 := hlen (k, v) (List.mem_cons_self _ _)
    have hrest := ih (fun kv hkv => hlen kv (List.mem_cons_of_mem _ hkv))
    simp [decodeLocation, Tag.fromStr, hk, hrest]

/-- C7: for every location mapping whose keys are all well-formed 4-character
axis tags, parsing the mapping into a design-space location and converting it
back to a tag-to-value mapping yields exactly the original tag→value pairs —
decoding succeeds pair by pair, and the built design location holds exactly
those pairs (a permutation: nothing dropped, duplicated, or altered). -/
theorem location_mapping_roundtrip (m : List (String × V))
    (hnd : (m.map Prod.fst).Nodup) (hlen : ∀ kv ∈ m, kv.1.length = 4) :
    decodeLocation m = .ok (m.map (fun kv => (Tag.mk kv.1, kv.2))) ∧
    List.Perm
      ((dlOfList (m.map (fun kv => (Tag.mk kv.1, kv.2)))).map
        (fun tv => (tv.1.chars, tv.2))) m := by
  refine ⟨decodeLocation_ok_of_len4 m hlen, ?_⟩
  have hinj : Function.Injective Tag.mk := fun a b h => congrArg Tag.chars h
  have hnd2 : ((m.map (fun kv => (Tag.mk kv.1, kv.2))).map Prod.fst).Nodup := by
    have hm : (m.map (fun kv => (Tag.mk kv.1, kv.2))).map Prod.fst =
        (m.map Prod.fst).map Tag.mk := by
      simp only [List.map_map]
      rfl
    rw [hm]
    exact List.Nodup.map hinj hnd
  have hperm :=
    (dlOfList_perm _ hnd2).map (fun tv : Tag × V => (tv.1.chars, tv.2))
  have hmm : (m.map (fun kv => (Tag.mk kv.1, kv.2))).map
      (fun tv : Tag × V => (tv.1.chars, tv.2)) = m := by
    rw [List.map_map]
    exact List.map_id m
  rw [hmm] at hperm
  exact hperm

/-- Witness for C7 at a two-axis mapping. -/
theorem location_mapping_roundtrip_witness :
    decodeLocation [("wght", (550 : Int)), ("wdth", 100)] =
      .ok [(Tag.mk "wght", 550), (Tag.mk "wdth", 100)] ∧
    List.Perm
      ((dlOfList [(Tag.mk "wght", (550 : Int)), (Tag.mk "wdth", 100)]).map
        (fun tv => (tv.1.chars, tv.2)))
      [("wght", 550), ("wdth", 100)] :=
  location_mapping_roundtrip [("wght", (550 : Int)), ("wdth", 100)]
    (by decide) (by decide)

end BabelfontBuild
